import Mathlib

/-!
Verification development for the ChapterMate reading-progress tracker
(`src/chapter_mate.py`), a shallow embedding of its non-presentation logic:
the page-window reader `get_pdf_text`, the extractive summarizer
`generate_summary_points`, the persistence loader `load_library_state`,
the progress-percentage computations, and the `go_next` / `go_prev`
navigation operations on the library state.

Modelling conventions:
- a PDF document handle is a list of pages, each `Option String`
  (`none` models a page whose text extraction raises);
- a file path that cannot be opened at all is modelled by passing `none`
  for the document;
- Python exceptions are modelled with `Option`: an operation that raises
  returns `none` (the bare `except` in `get_pdf_text` catches every
  exception raised anywhere in the `try` block, including inside the
  page loop);
- Python's `dict` (string keys) is modelled as an association list in
  which a key occurs at most once; lookup and update act on the first
  matching binding, which coincides with dict semantics;
- machine integers are `Int` (Python ints are unbounded, so no wrap);
- Python float division `page / total` is modelled over `ℚ`; a
  `ZeroDivisionError` is modelled as `none`.
-/

/-- The constant `DEFAULT_PAGES = 10`, the fixed window size of the program. -/
def DEFAULT_PAGES : Nat := 10

/-- A PDF document as the PyMuPDF black box exposes it to this program:
a sequence of pages; `none` marks a page whose `get_text` call raises. -/
structure PDFDoc where
  pages : List (Option String)
deriving DecidableEq, Repr

/-- The quadruple returned by `get_pdf_text`:
`(text, next_page, is_at_end, total_pages)`. -/
structure PWResult where
  text : String
  nextPage : Nat
  isAtEnd : Bool
  totalPages : Nat
deriving DecidableEq, Repr

/-- The page loop of `get_pdf_text` (lines 49-51):
`for i in range(start, end): text += doc.load_page(i).get_text("text") + " "`.
`i` is the current index, `cnt` the number of iterations left, `acc` the
accumulated text. A page whose extraction raises (`none`) makes the whole
loop raise, modelled by returning `none`. -/
def pageLoop (pages : List (Option String)) : Nat → Nat → String → Option String
  | _, 0, acc => some acc
  | i, cnt + 1, acc =>
    match pages.getD i none with
    | some p => pageLoop pages (i + 1) cnt (acc ++ p ++ " ")
    | none => none

/-- The reader `get_pdf_text(filepath, start_page, num_pages)` (lines 41-54).
`file = none` models a path `fitz.open` refuses; every exception inside
the `try` block lands in the bare `except`, which returns
`("", start_page, False, 0)`. -/
def get_pdf_text (file : Option PDFDoc) (start_page num_pages : Nat) : PWResult :=
  match file with
  | none => ⟨"", start_page, false, 0⟩
  | some doc =>
    let total := doc.pages.length
    if start_page ≥ total then ⟨"", start_page, true, total⟩
    else
      let e := min (start_page + num_pages) total
      match pageLoop doc.pages start_page (e - start_page) "" with
      | some t => ⟨t, e, decide (total ≤ e), total⟩
      | none => ⟨"", start_page, false, 0⟩

/-- Python `points[::2]`: every second element, starting with the first. -/
def everySecond : List α → List α
  | [] => []
  | [a] => [a]
  | a :: _ :: rest => a :: everySecond rest

/-- Python `text.split('. ')` at the character level: split on each
non-overlapping, leftmost occurrence of the two-character separator
`". "`. `split` always yields at least one (possibly empty) fragment. -/
def splitSeq : List Char → List (List Char)
  | [] => [[]]
  | '.' :: ' ' :: rest => [] :: splitSeq rest
  | c :: rest =>
    match splitSeq rest with
    | [] => [[c]]
    | g :: gs => (c :: g) :: gs

/-- Python `line.strip()` at the character level: drop leading and
trailing whitespace. -/
def stripChars (cs : List Char) : List Char :=
  ((cs.dropWhile Char.isWhitespace).reverse.dropWhile Char.isWhitespace).reverse

/-- The summarizer `generate_summary_points(text)` (lines 56-60):
flatten newlines to spaces, split on `". "`, keep fragments longer than
25 characters (measured before stripping), strip each, suffix each with
a period, then return all of them (`points[:50]`, a no-op when at most
50) or every second one (`points[::2]`) when more than 50. -/
def generate_summary_points (text : String) : List String :=
  let lines := splitSeq (text.data.map (fun c => if c = '\n' then ' ' else c))
  let valid_lines := (lines.filter (fun line => line.length > 25)).map stripChars
  let points := valid_lines.map (fun line => String.mk (line ++ [ '.' ]))
  if points.length ≤ 50 then points.take 50 else everySecond points

/-- Decidable check that a string consists of whitespace only (used to
state claims about "empty or whitespace-only" window text). -/
def whitespaceOnly (t : String) : Bool :=
  t.data.all Char.isWhitespace

/-- A book record as stored in `state["library"][path]` (line 151):
`{"title": ..., "page": ..., "total": ..., "status": ...}`. -/
structure BookRecord where
  title : String
  page : Int
  total : Int
  status : String
deriving DecidableEq, Repr

/-- The in-memory library state: `state["active_book"]` and
`state["library"]` (a dict from path to record, modelled as an
association list whose keys are unique). -/
structure LibraryState where
  active_book : Option String
  library : List (String × BookRecord)
deriving DecidableEq, Repr

/-- Python dict read `library[path]`: the first binding of the key,
`none` when the key is absent (a `KeyError`). -/
def dictLookup (k : String) : List (String × BookRecord) → Option BookRecord
  | [] => none
  | (k', v) :: rest => if k' = k then some v else dictLookup k rest

/-- Python dict write `library[path] = f(library[path])`: rewrite the
first binding of the key, leaving everything else in place. -/
def dictUpdate (k : String) (f : BookRecord → BookRecord) :
    List (String × BookRecord) → List (String × BookRecord)
  | [] => []
  | (k', v) :: rest =>
    if k' = k then (k', f v) :: rest else (k', v) :: dictUpdate k f rest

/-- The command `ChapterMate.go_next` (lines 178-183): when a book is active, add
`DEFAULT_PAGES` to its stored page offset (no clamp at the total).
Accessing a path missing from the library raises a `KeyError`,
modelled as `none`. Persistence (`save_library_state`) and the redraw
(`load_daily_content`) do not change the state further. -/
def go_next (s : LibraryState) : Option LibraryState :=
  match s.active_book with
  | none => some s
  | some path =>
    match dictLookup path s.library with
    | none => none
    | some _ =>
      some { s with
        library :=
          dictUpdate path
            (fun r => { r with page := r.page + (DEFAULT_PAGES : Int) })
            s.library }

/-- The command `ChapterMate.go_prev` (lines 185-190): when a book is active, set
its stored page offset to `max(0, page - DEFAULT_PAGES)`. -/
def go_prev (s : LibraryState) : Option LibraryState :=
  match s.active_book with
  | none => some s
  | some path =>
    match dictLookup path s.library with
    | none => none
    | some _ =>
      some { s with
        library :=
          dictUpdate path
            (fun r => { r with page := max 0 (r.page - (DEFAULT_PAGES : Int)) })
            s.library }

/-- One navigation command of the footer: NEXT or PREV. -/
inductive NavOp where
  | next : NavOp
  | prev : NavOp
deriving DecidableEq, Repr

/-- Run one navigation command. -/
def applyNav : NavOp → LibraryState → Option LibraryState
  | NavOp.next, s => go_next s
  | NavOp.prev, s => go_prev s

/-- Run a sequence of navigation commands, stopping at the first raise. -/
def applyNavs : List NavOp → LibraryState → Option LibraryState
  | [], s => some s
  | op :: ops, s => (applyNav op s).bind (applyNavs ops)

/-- A JSON value, the shape `json.load` / `json.dump` work with. -/
inductive JSON where
  | null : JSON
  | bool : Bool → JSON
  | num : Int → JSON
  | str : String → JSON
  | arr : List JSON → JSON
  | obj : List (String × JSON) → JSON
deriving Repr

/-- The loader `load_library_state()` (lines 31-36). The persisted file is seen as:
`none` = `STATE_FILE` does not exist; `some none` = the file exists but
`json.load` raises (caught by the bare `except`); `some (some j)` = it
parses to `j`. Both failure shapes fall through to the literal default
`{"active_book": None, "library": {}, "last_run_date": None}`. -/
def load_library_state (file : Option (Option JSON)) : JSON :=
  match file with
  | some (some j) => j
  | _ =>
    JSON.obj
      [ ("active_book", JSON.null), ("library", JSON.obj []),
        ("last_run_date", JSON.null) ]

/-- Python `int(x)` on a float: truncation toward zero. -/
def intTrunc (q : ℚ) : Int :=
  if q < 0 then -⌊-q⌋ else ⌊q⌋

/-- The progress computation of `ChapterMate.load_daily_content`
(line 168): `pct = (entry["page"] / entry["total"]) * 100`, Python true
division. When `entry["total"] = 0` the division raises
`ZeroDivisionError`, modelled as `none`. -/
def load_daily_pct (entry : BookRecord) : Option ℚ :=
  if entry.total = 0 then none
  else some ((entry.page : ℚ) / (entry.total : ℚ) * 100)

/-- The percentage shown by `ChapterMate.open_library` (line 135):
`int(data['page']/data['total']*100)`. When `data['total'] = 0` the
division raises `ZeroDivisionError`, modelled as `none`. -/
def open_library_pct (data : BookRecord) : Option Int :=
  if data.total = 0 then none
  else some (intTrunc ((data.page : ℚ) / (data.total : ℚ) * 100))

/-- The extractive summarizer exactly as claim C5 words it (no stripping
of the kept fragments: each candidate is returned "suffixed with a
period"). Compared against `generate_summary_points` below. -/
def generate_summary_points_claim (text : String) : List String :=
  let candidates :=
    (splitSeq (text.data.map (fun c => if c = '\n' then ' ' else c))).filter
      (fun line => line.length > 25)
  let points := candidates.map (fun line => String.mk (line ++ [ '.' ]))
  if points.length ≤ 50 then points else everySecond points

/-- The extractive summarizer as the amended claim words it: candidates
are the raw fragments longer than 25 characters; each is stripped of
surrounding whitespace and suffixed with a period; at most 50 points
are returned as they are, otherwise every second one. -/
def generate_summary_points_amended (text : String) : List String :=
  let candidates :=
    (splitSeq (text.data.map (fun c => if c = '\n' then ' ' else c))).filter
      (fun line => line.length > 25)
  let points := candidates.map (fun line => String.mk (stripChars line ++ [ '.' ]))
  if points.length ≤ 50 then points else everySecond points

/-! ## Helper lemmas -/

theorem pageLoop_isSome (pages : List (Option String)) (cnt : Nat) :
    ∀ (i : Nat) (acc : String),
      (∀ j, j < cnt → (pages.getD (i + j) none).isSome) →
      (pageLoop pages i cnt acc).isSome := by
  induction cnt with
  | zero => intro i acc _; simp [pageLoop]
  | succ n ih =>
    intro i acc h
    have h0 : (pages.getD i none).isSome := by
      have h1 := h 0 (Nat.succ_pos n)
      simpa using h1
    obtain ⟨p, hp⟩ := Option.isSome_iff_exists.mp h0
    simp only [pageLoop, hp]
    refine ih (i + 1) (acc ++ p ++ " ") (fun j hj => ?_)
    have h2 := h (j + 1) (Nat.succ_lt_succ hj)
    have e : i + (j + 1) = i + 1 + j := by omega
    rwa [e] at h2

theorem pageLoop_eq_none (pages : List (Option String)) (cnt : Nat) :
    ∀ (i : Nat) (acc : String) (j : Nat), j < cnt →
      pages.getD (i + j) none = none →
      pageLoop pages i cnt acc = none := by
  induction cnt with
  | zero => intro i acc j hj _; exact absurd hj (Nat.not_lt_zero j)
  | succ n ih =>
    intro i acc j hj hfail
    cases hj0 : pages.getD i none with
    | none =>
      simp only [pageLoop]
      rw [hj0]
    | some p =>
      simp only [pageLoop]
      rw [hj0]
      cases j with
      | zero =>
        rw [Nat.add_zero] at hfail
        rw [hfail] at hj0
        cases hj0
      | succ j' =>
        refine ih (i + 1) (acc ++ p ++ " ") j' (by omega) ?_
        have e : i + 1 + j' = i + (j' + 1) := by omega
        rwa [e]

theorem getD_map_some (l : List String) (i : Nat) (h : i < l.length) :
    ((l.map some).getD i none).isSome := by
  induction l generalizing i with
  | nil => simp at h
  | cons a as ih =>
    cases i with
    | zero => simp [List.getD]
    | succ n =>
      have h2 : n < as.length := by simpa using h
      simpa [List.getD] using ih n h2

theorem get_pdf_text_all_some (texts : List String) (s n : Nat)
    (hs : s < texts.length) :
    ∃ t, get_pdf_text (some ⟨texts.map some⟩) s n =
      ⟨t, min (s + n) texts.length,
        decide (texts.length ≤ min (s + n) texts.length), texts.length⟩ := by
  have hloop :
      (pageLoop (texts.map some) s (min (s + n) texts.length - s) "").isSome := by
    refine pageLoop_isSome _ _ s "" (fun j hj => ?_)
    exact getD_map_some texts (s + j) (by omega)
  obtain ⟨t, ht⟩ := Option.isSome_iff_exists.mp hloop
  refine ⟨t, ?_⟩
  simp only [get_pdf_text, List.length_map]
  rw [if_neg (by omega)]
  simp only [List.length_map, ht]

theorem dictLookup_dictUpdate_self (k : String) (f : BookRecord → BookRecord)
    (l : List (String × BookRecord)) :
    dictLookup k (dictUpdate k f l) = (dictLookup k l).map f := by
  induction l with
  | nil => rfl
  | cons hd tl ih =>
    obtain ⟨k', v⟩ := hd
    by_cases h : k' = k
    · simp [dictUpdate, dictLookup, h]
    · simp [dictUpdate, dictLookup, h, ih]

theorem dictUpdate_roundtrip (k : String) (l : List (String × BookRecord))
    (r : BookRecord) (hL : dictLookup k l = some r) (hpg : 0 ≤ r.page) :
    dictUpdate k
        (fun r' => { r' with page := max 0 (r'.page - (DEFAULT_PAGES : Int)) })
        (dictUpdate k
          (fun r' => { r' with page := r'.page + (DEFAULT_PAGES : Int) }) l) =
      l := by
  induction l with
  | nil => rfl
  | cons hd tl ih =>
    obtain ⟨k', v⟩ := hd
    by_cases h : k' = k
    · simp only [dictLookup, if_pos h] at hL
      injection hL with hvr
      subst hvr
      simp only [dictUpdate, if_pos h]
      have e : v.page + (DEFAULT_PAGES : Int) - (DEFAULT_PAGES : Int) = v.page := by
        ring
      rw [e, max_eq_right hpg]
    · simp only [dictLookup, if_neg h] at hL
      simp only [dictUpdate, if_neg h]
      rw [ih hL]

theorem dictUpdate_forall {P : BookRecord → Prop} (k : String)
    (f : BookRecord → BookRecord) (l : List (String × BookRecord))
    (hf : ∀ r, P r → P (f r)) (hl : ∀ pr ∈ l, P pr.2) :
    ∀ pr ∈ dictUpdate k f l, P pr.2 := by
  induction l with
  | nil => intro pr hpr; cases hpr
  | cons hd tl ih =>
    obtain ⟨k', v⟩ := hd
    intro pr hpr
    by_cases h : k' = k
    · rw [dictUpdate, if_pos h] at hpr
      rcases List.mem_cons.mp hpr with h1 | h1
      · subst h1
        exact hf v (hl (k', v) (List.mem_cons_self _ _))
      · exact hl pr (List.mem_cons_of_mem _ h1)
    · rw [dictUpdate, if_neg h] at hpr
      rcases List.mem_cons.mp hpr with h1 | h1
      · subst h1
        exact hl (k', v) (List.mem_cons_self _ _)
      · exact ih (fun q hq => hl q (List.mem_cons_of_mem _ hq)) pr h1

theorem applyNav_preserves_nonneg (op : NavOp) (s s' : LibraryState)
    (h : applyNav op s = some s') (hinv : ∀ pr ∈ s.library, 0 ≤ pr.2.page) :
    ∀ pr ∈ s'.library, 0 ≤ pr.2.page := by
  cases op with
  | next =>
    simp only [applyNav, go_next] at h
    rcases hA : s.active_book with _ | path
    · simp only [hA] at h
      obtain rfl := Option.some.inj h
      exact hinv
    · simp only [hA] at h
      rcases hLk : dictLookup path s.library with _ | r
      · simp only [hLk] at h
        exact Option.noConfusion h
      · simp only [hLk] at h
        obtain rfl := Option.some.inj h
        refine @dictUpdate_forall (fun r'' => 0 ≤ r''.page) path _ s.library
          (fun r' hr' => ?_) hinv
        show 0 ≤ r'.page + (DEFAULT_PAGES : Int)
        have hD : (DEFAULT_PAGES : Int) = 10 := rfl
        omega
  | prev =>
    simp only [applyNav, go_prev] at h
    rcases hA : s.active_book with _ | path
    · simp only [hA] at h
      obtain rfl := Option.some.inj h
      exact hinv
    · simp only [hA] at h
      rcases hLk : dictLookup path s.library with _ | r
      · simp only [hLk] at h
        exact Option.noConfusion h
      · simp only [hLk] at h
        obtain rfl := Option.some.inj h
        refine @dictUpdate_forall (fun r'' => 0 ≤ r''.page) path _ s.library
          (fun r' _ => ?_) hinv
        exact le_max_left 0 _

theorem take_if_le_50 (L : List String) :
    (if L.length ≤ 50 then L.take 50 else everySecond L) =
      (if L.length ≤ 50 then L else everySecond L) := by
  by_cases h : L.length ≤ 50
  · rw [if_pos h, if_pos h]
    exact List.take_of_length_le h
  · rw [if_neg h, if_neg h]

/-! ## Claim theorems -/

/-- C1, counterexample: in `get_pdf_text` the single `try`/`except`
wraps the whole page loop, so a page that raises during extraction
aborts the entire window read. For a 7-page PDF whose pages 3 and 4
raise while pages 0-2 and 5-6 succeed, reading the window `[0,6)` does
NOT return the concatenation of pages 0,1,2,5 with `nextPage = 6`: it
returns empty text with `nextPage = 0` (the unchanged start), the
whole-read failure result. -/
theorem c1_counterexample :
    get_pdf_text
        (some ⟨[ some "A", some "B", some "C", none, none, some "F", some "G" ]⟩)
        0 6 =
      ⟨"", 0, false, 0⟩ ∧
    ("" : String) ≠ "A B C F " ∧ (0 : Nat) ≠ 6 := by
  refine ⟨by decide, by decide, by decide⟩

/-- C1, amended: a failure to extract any single page inside the window
is propagated to the function's outer `except` handler, which aborts the
whole read: the read returns empty text (not the concatenation of the
pages that succeeded), `nextPage` equal to the unchanged start page,
`isAtEnd = false` and `totalPages = 0`. -/
theorem c1_failure_aborts_window (doc : PDFDoc) (s n i : Nat)
    (hs : s < doc.pages.length) (hi1 : s ≤ i)
    (hi2 : i < min (s + n) doc.pages.length)
    (hfail : doc.pages.getD i none = none) :
    get_pdf_text (some doc) s n = ⟨"", s, false, 0⟩ := by
  have hloop : pageLoop doc.pages s (min (s + n) doc.pages.length - s) "" = none := by
    refine pageLoop_eq_none doc.pages _ s "" (i - s) (by omega) ?_
    have e : s + (i - s) = i := by omega
    rw [e]
    exact hfail
  simp only [get_pdf_text]
  rw [if_neg (by omega)]
  simp only [hloop]

/-- C1, witness: a 2-page document whose page 1 raises; reading the
window `[0,2)` from page 0 returns the aborted-read result. -/
theorem c1_witness :
    get_pdf_text (some ⟨[ some "A", none ]⟩) 0 10 = ⟨"", 0, false, 0⟩ :=
  c1_failure_aborts_window ⟨[ some "A", none ]⟩ 0 10 1
    (by decide) (by decide) (by decide) (by decide)

/-- C2, code bug: both percentage computations divide by the stored
total with no guard, so a record with `total = 0` (a zero-page PDF)
raises `ZeroDivisionError` (modelled as `none`) instead of defaulting
to 0 as the spec requires — in the active-book display
(`load_daily_content`, line 168) and in the library listing
(`open_library`, line 135) alike. -/
theorem c2_zero_total_division :
    load_daily_pct ⟨"book.pdf", 0, 0, "reading"⟩ = none ∧
    open_library_pct ⟨"book.pdf", 0, 0, "reading"⟩ = none := by
  exact ⟨rfl, rfl⟩

/-- C3, counterexample: `go_next` adds the window size to the offset
without clamping at the total, so starting from the record
`page = 0, total = 5` (which satisfies `0 ≤ page ≤ total`) a single
advance yields `page = 10 > 5 = total`, breaking the invariant's upper
bound. -/
theorem c3_counterexample :
    applyNavs [ NavOp.next ] ⟨some "b", [ ("b", ⟨"b.pdf", 0, 5, "reading"⟩) ]⟩ =
      some ⟨some "b", [ ("b", ⟨"b.pdf", 10, 5, "reading"⟩) ]⟩ ∧
    ¬ ((10 : Int) ≤ (5 : Int)) := by
  refine ⟨by decide, by decide⟩

/-- C3, amended: for every sequence of advance/retreat operations
starting from a library state all of whose records have a non-negative
page offset, every record's offset is still non-negative after each
operation; the upper bound `page ≤ total` is NOT preserved (`go_next`
does not clamp at the total). -/
theorem c3_lower_bound_preserved (ops : List NavOp) :
    ∀ (s s' : LibraryState), (∀ pr ∈ s.library, 0 ≤ pr.2.page) →
      applyNavs ops s = some s' → ∀ pr ∈ s'.library, 0 ≤ pr.2.page := by
  induction ops with
  | nil =>
    intro s s' hinv h
    obtain rfl := Option.some.inj h
    exact hinv
  | cons op ops ih =>
    intro s s' hinv h
    simp only [applyNavs] at h
    rcases h1 : applyNav op s with _ | s1
    · rw [h1] at h
      cases h
    · rw [h1] at h
      exact ih s1 s' (applyNav_preserves_nonneg op s s1 h1 hinv) h

/-- C3, witness: NEXT then PREV twice from offset 3 ends at offset 0,
still non-negative. -/
theorem c3_witness : (0 : Int) ≤ (BookRecord.mk "t" 0 20 "reading").page :=
  c3_lower_bound_preserved [ NavOp.next, NavOp.prev, NavOp.prev ]
    ⟨some "b", [ ("b", ⟨"t", 3, 20, "reading"⟩) ]⟩
    ⟨some "b", [ ("b", ⟨"t", 0, 20, "reading"⟩) ]⟩
    (by decide) (by decide)
    ("b", ⟨"t", 0, 20, "reading"⟩) (by decide)

/-- C5, counterexample: the summarizer does not return each qualifying
candidate merely "suffixed with a period": it also strips surrounding
whitespace first (and measures the 25-character threshold on the raw,
unstripped fragment). On the input below the qualifying fragment is the
27-character `"aaaaaaaaaaaaaaaaaaaaaaaaaa "` (trailing space included),
and the code returns it stripped, so the output differs from the
claim's transcription `generate_summary_points_claim`. -/
theorem c5_counterexample :
    generate_summary_points "aaaaaaaaaaaaaaaaaaaaaaaaaa . x" =
      [ "aaaaaaaaaaaaaaaaaaaaaaaaaa." ] ∧
    generate_summary_points_claim "aaaaaaaaaaaaaaaaaaaaaaaaaa . x" =
      [ "aaaaaaaaaaaaaaaaaaaaaaaaaa ." ] ∧
    ( "aaaaaaaaaaaaaaaaaaaaaaaaaa." : String) ≠ "aaaaaaaaaaaaaaaaaaaaaaaaaa ." := by
  refine ⟨by decide, by decide, by decide⟩

/-- C5, amended: for every input text the summarizer flattens newlines
to spaces, splits on period-followed-by-space, keeps only raw fragments
longer than 25 characters, strips each kept fragment of surrounding
whitespace and suffixes it with a period, and then returns all of them
in original order when at most 50 qualify, or exactly every second one
(original relative order preserved) when more than 50 qualify; empty
input yields the empty sequence, and there is no other failure path
(the function is total). -/
theorem c5_summarizer_characterization :
    (∀ text, generate_summary_points text =
      generate_summary_points_amended text) ∧
    generate_summary_points "" = [] := by
  constructor
  · intro text
    unfold generate_summary_points generate_summary_points_amended
    simp only [List.map_map]
    rw [show ((fun line => String.mk (line ++ [ '.' ])) ∘ stripChars) =
        (fun line => String.mk (stripChars line ++ [ '.' ])) from rfl]
    exact take_if_le_50 _
  · decide

/-- C6, counterexample: `get_pdf_text` has no empty-text check at all: a
1-page document whose page extracts to the empty string yields the
whitespace-only text `" "` returned as-is in the text channel, with
`nextPage = 1` (advanced, not held at the start page 0) and
`isAtEnd = true` (not `false`); no sentinel error string exists in this
code. -/
theorem c6_counterexample :
    get_pdf_text (some ⟨[ some "" ]⟩) 0 10 = ⟨" ", 1, true, 1⟩ ∧
    whitespaceOnly " " = true ∧ (1 : Nat) ≠ 0 := by
  refine ⟨by decide, by decide, by decide⟩

/-- C6, amended: a window read that opens the document, starts inside
it, and extracts every page of the window is returned identically
whether or not the concatenated text is empty or whitespace-only: the
text itself in the text channel, `nextPage = min(start + window, total)`
(advanced, not unchanged), and `isAtEnd = (nextPage ≥ total)`; there is
no sentinel error string. -/
theorem c6_whitespace_read_advances (doc : PDFDoc) (s n : Nat)
    (hs : s < doc.pages.length)
    (hall : ∀ j, j < min (s + n) doc.pages.length - s →
      (doc.pages.getD (s + j) none).isSome)
    (_hws : whitespaceOnly (get_pdf_text (some doc) s n).text = true) :
    (get_pdf_text (some doc) s n).nextPage = min (s + n) doc.pages.length ∧
    (get_pdf_text (some doc) s n).isAtEnd =
      decide (doc.pages.length ≤ min (s + n) doc.pages.length) := by
  have hloop := pageLoop_isSome doc.pages (min (s + n) doc.pages.length - s) s "" hall
  obtain ⟨t, ht⟩ := Option.isSome_iff_exists.mp hloop
  have heval : get_pdf_text (some doc) s n =
      ⟨t, min (s + n) doc.pages.length,
        decide (doc.pages.length ≤ min (s + n) doc.pages.length),
        doc.pages.length⟩ := by
    simp only [get_pdf_text]
    rw [if_neg (by omega)]
    simp only [ht]
  rw [heval]
  exact ⟨rfl, rfl⟩

/-- C6, witness: the blank 1-page document read from page 0 with window
10 produces whitespace-only text and still advances to `nextPage = 1`
with `isAtEnd = true`. -/
theorem c6_witness :
    (get_pdf_text (some ⟨[ some "" ]⟩) 0 10).nextPage = 1 ∧
    (get_pdf_text (some ⟨[ some "" ]⟩) 0 10).isAtEnd = true := by
  have h := c6_whitespace_read_advances ⟨[ some "" ]⟩ 0 10
    (by decide) (by decide) (by decide)
  exact ⟨h.1.trans (by decide), h.2.trans (by decide)⟩

/-- C7, counterexample: the default state returned by
`load_library_state` on a missing file is not exactly
`{active_book: null, library: {}}` — the literal in the code carries a
third key, `last_run_date: null`. -/
theorem c7_counterexample :
    load_library_state none ≠
      JSON.obj [ ("active_book", JSON.null), ("library", JSON.obj []) ] := by
  simp [load_library_state]

/-- C7, amended: loading the library state when the persisted file is
absent, or present but unparseable as JSON, never raises (the function
is total) and returns exactly the default state
`{active_book: null, library: {}, last_run_date: null}`. -/
theorem c7_default_state :
    load_library_state none =
      JSON.obj
        [ ("active_book", JSON.null), ("library", JSON.obj []),
          ("last_run_date", JSON.null) ] ∧
    load_library_state (some none) =
      JSON.obj
        [ ("active_book", JSON.null), ("library", JSON.obj []),
          ("last_run_date", JSON.null) ] := by
  exact ⟨rfl, rfl⟩

/-- C8: for every page window read where the start page is at or past
the total page count, the read returns empty text, `nextPage` equal to
the unchanged start page, `isAtEnd = true`, and the document's true
total page count. -/
theorem c8_read_past_end (doc : PDFDoc) (s n : Nat)
    (h : doc.pages.length ≤ s) :
    get_pdf_text (some doc) s n = ⟨"", s, true, doc.pages.length⟩ := by
  simp only [get_pdf_text]
  rw [if_pos (by omega)]

/-- C8, witness: reading from page 5 of a 1-page document. -/
theorem c8_witness :
    get_pdf_text (some ⟨[ some "A" ]⟩) 5 10 = ⟨"", 5, true, 1⟩ :=
  c8_read_past_end ⟨[ some "A" ]⟩ 5 10 (by decide)

/-- C9: for every starting page offset of the active book, including
offsets smaller than the window size, `go_prev` sets the offset to
`max(0, offset - DEFAULT_PAGES)`, which is never negative. -/
theorem c9_go_prev_clamped (s : LibraryState) (path : String) (r : BookRecord)
    (hA : s.active_book = some path)
    (hL : dictLookup path s.library = some r) :
    go_prev s =
      some { s with
        library :=
          dictUpdate path
            (fun r' => { r' with page := max 0 (r'.page - (DEFAULT_PAGES : Int)) })
            s.library } ∧
    dictLookup path
        (dictUpdate path
          (fun r' => { r' with page := max 0 (r'.page - (DEFAULT_PAGES : Int)) })
          s.library) =
      some { r with page := max 0 (r.page - (DEFAULT_PAGES : Int)) } ∧
    0 ≤ max 0 (r.page - (DEFAULT_PAGES : Int)) := by
  refine ⟨?_, ?_, le_max_left 0 _⟩
  · simp only [go_prev, hA, hL]
  · rw [dictLookup_dictUpdate_self, hL]
    rfl

/-- C9, witness: retreating from offset 3, smaller than the window size
10, clamps to 0. -/
theorem c9_witness :
    go_prev ⟨some "b", [ ("b", ⟨"t", 3, 20, "reading"⟩) ]⟩ =
      some ⟨some "b", [ ("b", ⟨"t", 0, 20, "reading"⟩) ]⟩ := by
  have h := c9_go_prev_clamped ⟨some "b", [ ("b", ⟨"t", 3, 20, "reading"⟩) ]⟩
    "b" ⟨"t", 3, 20, "reading"⟩ rfl rfl
  rw [h.1]
  decide

/-- C10: for every active book record with a non-negative page offset,
`go_next` followed immediately by `go_prev` restores the whole library
state: the offset returns to its original value and every other field
of every record and the active-book pointer are unchanged. -/
theorem c10_next_prev_roundtrip (s : LibraryState) (path : String)
    (r : BookRecord) (hA : s.active_book = some path)
    (hL : dictLookup path s.library = some r) (hpg : 0 ≤ r.page) :
    (go_next s).bind go_prev = some s := by
  have h1 : go_next s =
      some { s with
        library :=
          dictUpdate path
            (fun r' => { r' with page := r'.page + (DEFAULT_PAGES : Int) })
            s.library } := by
    simp only [go_next, hA, hL]
  rw [h1]
  show go_prev _ = some s
  have hL1 : dictLookup path
      (dictUpdate path
        (fun r' => { r' with page := r'.page + (DEFAULT_PAGES : Int) })
        s.library) =
      some { r with page := r.page + (DEFAULT_PAGES : Int) } := by
    rw [dictLookup_dictUpdate_self, hL]
    rfl
  simp only [go_prev, hA, hL1]
  rw [dictUpdate_roundtrip path s.library r hL hpg, ← hA]

/-- C10, witness: from offset 7, NEXT then PREV returns the state to
exactly its original value. -/
theorem c10_witness :
    (go_next ⟨some "b", [ ("b", ⟨"t", 7, 20, "reading"⟩) ]⟩).bind go_prev =
      some ⟨some "b", [ ("b", ⟨"t", 7, 20, "reading"⟩) ]⟩ :=
  c10_next_prev_roundtrip ⟨some "b", [ ("b", ⟨"t", 7, 20, "reading"⟩) ]⟩
    "b" ⟨"t", 7, 20, "reading"⟩ rfl rfl (by decide)

/-- C4, counterexample: the claim quantifies over any document and any
window size, but it fails at the edges. With `P = 0` pages (and
`W = 10`), `ceil(P/W) = 0`, yet a 0th read does not exist and the very
first read (at offset 0) already reports `isAtEnd = true`. With `W = 0`
(and `P = 1`), the first read reports `isAtEnd = false` and every read
stays at offset `0`, so `isAtEnd` never becomes true. And for a 1-page
document whose single page raises on extraction (`P = 1`, `W = 10`,
`ceil(P/W) = 1`), the 1st read returns the aborted-read result with
`isAtEnd = false` and `nextPage = 0 ≠ 1 = P`. -/
theorem c4_counterexample :
    (get_pdf_text (some ⟨([] : List (Option String))⟩) 0 10).isAtEnd = true ∧
    (0 + 10 - 1) / 10 = 0 ∧
    (get_pdf_text (some ⟨[ some "A" ]⟩) 0 0).isAtEnd = false ∧
    (1 + 0 - 1) / 0 = 0 ∧
    (get_pdf_text (some ⟨[ none ]⟩) 0 10).isAtEnd = false ∧
    (get_pdf_text (some ⟨[ none ]⟩) 0 10).nextPage = 0 ∧
    (1 + 10 - 1) / 10 = 1 := by
  refine ⟨by decide, by decide, by decide, by decide, by decide, by decide,
    by decide⟩

/-- C4, amended: for any document with `P ≥ 1` pages, all of whose
pages extract successfully, and any window size `W ≥ 1`, reading the
window at offset `(k-1)*W` for `k = 1, 2, ...` (the k-th read, the
offset advancing by `W` each time), every read before the
`ceil(P/W)`-th reports `isAtEnd = false`, and the `ceil(P/W)`-th read
(`ceil(P/W) = (P + W - 1) / W`) reports `isAtEnd = true` for the first
time, with `nextPage = P`. -/
theorem c4_window_count (texts : List String) (W : Nat)
    (hP : 1 ≤ texts.length) (hW : 1 ≤ W) :
    (∀ k, 1 ≤ k → k < (texts.length + W - 1) / W →
      (get_pdf_text (some ⟨texts.map some⟩) ((k - 1) * W) W).isAtEnd = false) ∧
    (get_pdf_text (some ⟨texts.map some⟩)
        (((texts.length + W - 1) / W - 1) * W) W).isAtEnd = true ∧
    (get_pdf_text (some ⟨texts.map some⟩)
        (((texts.length + W - 1) / W - 1) * W) W).nextPage = texts.length := by
  have hWpos : 0 < W := hW
  have hm1 : (texts.length + W - 1) / W = (texts.length - 1) / W + 1 := by
    rw [show texts.length + W - 1 = (texts.length - 1) + W by omega,
      Nat.add_div_right _ hWpos]
  have hub : ((texts.length - 1) / W) * W < texts.length :=
    lt_of_le_of_lt (Nat.div_mul_le_self (texts.length - 1) W) (by omega)
  have hle : texts.length ≤ ((texts.length - 1) / W + 1) * W := by
    have hd := Nat.div_add_mod (texts.length - 1) W
    have hmod : (texts.length - 1) % W < W := Nat.mod_lt _ hWpos
    have hexp : ((texts.length - 1) / W + 1) * W =
        W * ((texts.length - 1) / W) + W := by ring
    omega
  rw [hm1]
  simp only [Nat.add_sub_cancel]
  obtain ⟨q, hq⟩ : ∃ q, (texts.length - 1) / W = q := ⟨_, rfl⟩
  rw [hq] at hub hle ⊢
  obtain ⟨t2, ht2⟩ := get_pdf_text_all_some texts (q * W) W hub
  have hmin2 : min (q * W + W) texts.length = texts.length := by
    have e2 : q * W + W = (q + 1) * W := by ring
    rw [e2]
    exact min_eq_right hle
  refine ⟨?_, ?_, ?_⟩
  · intro k hk1 hkm
    obtain ⟨j, rfl⟩ : ∃ j, k = j + 1 := ⟨k - 1, by omega⟩
    simp only [Nat.add_sub_cancel]
    have hlt : (j + 1) * W < texts.length :=
      lt_of_le_of_lt (Nat.mul_le_mul_right W (by omega)) hub
    have hsP : j * W < texts.length := by
      have hj : j * W ≤ (j + 1) * W := Nat.mul_le_mul_right W (by omega)
      omega
    obtain ⟨t, ht⟩ := get_pdf_text_all_some texts (j * W) W hsP
    rw [ht]
    show decide (texts.length ≤ min (j * W + W) texts.length) = false
    have hjW : j * W + W = (j + 1) * W := by ring
    have hmin : min (j * W + W) texts.length = (j + 1) * W := by
      rw [hjW]
      exact min_eq_left (le_of_lt hlt)
    rw [hmin]
    exact decide_eq_false (by omega)
  · rw [ht2]
    show decide (texts.length ≤ min (q * W + W) texts.length) = true
    rw [hmin2]
    exact decide_eq_true (le_refl texts.length)
  · rw [ht2]
    show min (q * W + W) texts.length = texts.length
    exact hmin2

/-- C4, witness: a 5-page document read with window size 2 needs
`ceil(5/2) = 3` reads: the reads at offsets 0 and 2 report
`isAtEnd = false`, and the third read, at offset 4, reports
`isAtEnd = true` with `nextPage = 5`. -/
theorem c4_witness :
    (get_pdf_text (some ⟨(List.replicate 5 "pg").map some⟩) 2 2).isAtEnd =
      false ∧
    (get_pdf_text (some ⟨(List.replicate 5 "pg").map some⟩) 4 2).isAtEnd =
      true ∧
    (get_pdf_text (some ⟨(List.replicate 5 "pg").map some⟩) 4 2).nextPage =
      5 := by
  have h := c4_window_count (List.replicate 5 "pg") 2 (by decide) (by decide)
  refine ⟨?_, ?_, ?_⟩
  · exact h.1 2 (by decide) (by decide)
  · exact h.2.1
  · exact h.2.2
